import Mathlib

/-!
Verification of the rotala client-side Broker (reconciliation engine).

The development shallowly embeds the two Python broker variants:
  * `Rotala` — src/rotala-python/src/broker.py (the richer variant)
  * `Snek`   — src/example_clients/snek/src/broker.py (the example client)

Numeric fields (cash, quantity, value, price) are modelled as `Int`:
the claims under study are exact arithmetic identities, not rounding
statements. Python dictionaries are modelled as association lists with
insertion-order semantics (`dictSet` overwrites in place or appends at
the end, matching CPython dict ordering). A Python uncaught exception
is modelled as `PyOutcome.error`, and a call to `exit(n)` as
`PyOutcome.exited n`.
-/

/-- Outcome of running a Python method: normal return, an uncaught
exception (KeyError, TypeError, ...), or process termination via
`exit(code)`. -/
inductive PyOutcome (α : Type) where
  | ok (a : α) : PyOutcome α
  | error (msg : String) : PyOutcome α
  | exited (code : Nat) : PyOutcome α
  deriving Repr, DecidableEq

/-- `d.get(k)` on a Python dict: the value at the first (unique)
occurrence of the key. -/
def dictGet {α β : Type} [DecidableEq α] : List (α × β) → α → Option β
  | [], _ => none
  | (k0, v0) :: rest, k => if k0 = k then some v0 else dictGet rest k

/-- `d[k] = v` on a Python dict: overwrite in place if the key exists,
else append at the end (CPython insertion order). -/
def dictSet {α β : Type} [DecidableEq α] (m : List (α × β)) (k : α) (v : β) :
    List (α × β) :=
  match m with
  | [] => [(k, v)]
  | (k0, v0) :: rest =>
      if k0 = k then (k, v) :: rest else (k0, v0) :: dictSet rest k v

/-- `del d[k]` on a Python dict: `none` models the KeyError raised when
the key is absent. -/
def dictDel {α β : Type} [DecidableEq α] (m : List (α × β)) (k : α) :
    Option (List (α × β)) :=
  if (dictGet m k).isSome then some (m.filter (fun p => p.1 ≠ k)) else none

/-- Keys of a Python dict. -/
def dictKeys {α β : Type} (m : List (α × β)) : List α := m.map Prod.fst

namespace Rotala

/-- `OrderType` enum of src/rotala-python/src/broker.py. -/
inductive OrderType where
  | MarketSell | MarketBuy | LimitBuy | LimitSell | Modify | Cancel
  deriving Repr, DecidableEq

/-- Name string of an `OrderType` member (`self.order_type.name`). -/
def OrderType.pyName : OrderType → String
  | .MarketSell => "MarketSell"
  | .MarketBuy => "MarketBuy"
  | .LimitBuy => "LimitBuy"
  | .LimitSell => "LimitSell"
  | .Modify => "Modify"
  | .Cancel => "Cancel"

/-- The `Order` value object (fields as stored by a successfully
constructed `Order`). -/
structure Order where
  order_type : OrderType
  symbol : String
  qty : Int
  price : Option Int
  order_id_ref : Option Int
  deriving Repr, DecidableEq

/-- `Order.__init__` of src/rotala-python/src/broker.py: the only
validation performed is that a Market-kind order must not carry a
price; every other argument combination constructs successfully. -/
def Order.init (t : OrderType) (s : String) (q : Int) (p : Option Int)
    (r : Option Int) : Except String Order :=
  if (t = .MarketSell ∨ t = .MarketBuy) ∧ p ≠ none then
    .error "Order price must be None for Market order"
  else
    .ok ⟨t, s, q, p, r⟩

/-- A dynamically typed Python value, as far as the (de)serialization
code manipulates one: an `OrderType` enum member, a string, a number,
or None. Python equality between a string and an enum member is False,
which the `DecidableEq` on distinct constructors reproduces. -/
inductive PyVal where
  | enum (t : OrderType)
  | str (s : String)
  | num (n : Int)
  | pyNone
  deriving Repr, DecidableEq

/-- Injection of an optional number into a Python value. -/
def pyOfOpt : Option Int → PyVal
  | none => .pyNone
  | some n => .num n

/-- The object produced by `Order.__init__` when called with
dynamically typed arguments (as `Order.from_json` does). -/
structure PyOrder where
  order_type : PyVal
  symbol : PyVal
  qty : PyVal
  price : PyVal
  order_id_ref : PyVal
  deriving Repr, DecidableEq

/-- `Order.__init__` at the dynamic level: the Market-price check
compares `order_type` with enum members, which is False whenever
`order_type` is not an enum member (e.g. a raw string). -/
def order_init_dyn (t s q p r : PyVal) : Except String PyOrder :=
  if (t = .enum .MarketSell ∨ t = .enum .MarketBuy) ∧ p ≠ .pyNone then
    .error "Order price must be None for Market order"
  else
    .ok ⟨t, s, q, p, r⟩

/-- The fields of a statically well-typed `Order`, viewed as the
dynamic object an equivalent deserialized Order would have to be. -/
def Order.toPy (o : Order) : PyOrder :=
  ⟨.enum o.order_type, .str o.symbol, .num o.qty,
    pyOfOpt o.price, pyOfOpt o.order_id_ref⟩

/-- Python truthiness of the optional `price` field (`if self.price:`):
None and 0 are falsy. -/
def priceTruthy : Option Int → Bool
  | none => false
  | some n => n ≠ 0

/-- `Order.serialize`: the JSON object text it builds, modelled as the
ordered key-value pairs of that object. `price` is emitted only when
truthy; `order_id_ref` only when not None. -/
def Order.serialize (o : Order) : List (String × PyVal) :=
  [("order_type", .str o.order_type.pyName),
   ("symbol", .str o.symbol),
   ("qty", .num o.qty)]
  ++ (if priceTruthy o.price then [("price", .num (o.price.getD 0))] else [])
  ++ (match o.order_id_ref with
      | some r => [("order_id_ref", PyVal.num r)]
      | none => [])

/-- `to_dict[k]` on a parsed JSON object: KeyError when absent. -/
def getItem (d : List (String × PyVal)) (k : String) : Except String PyVal :=
  match dictGet d k with
  | some v => .ok v
  | none => .error ("KeyError: " ++ k)

/-- `Order.from_json`: parse, then call `Order.__init__` with the five
items looked up in argument order. The `order_type` item is passed
through as the raw string (no `OrderType(...)` conversion, unlike
`Order.from_dict`), and the lookups of `price` and `order_id_ref` are
unconditional. -/
def Order.from_json (d : List (String × PyVal)) : Except String PyOrder := do
  let t ← getItem d "order_type"
  let s ← getItem d "symbol"
  let q ← getItem d "qty"
  let p ← getItem d "price"
  let r ← getItem d "order_id_ref"
  order_init_dyn t s q p r

/-- `OrderResultType` enum. -/
inductive OrderResultType where
  | Buy | Sell | Modify | Cancel
  deriving Repr, DecidableEq

/-- `OrderResult`: a fill or lifecycle event reported by the service. -/
structure OrderResult where
  symbol : String
  value : Int
  quantity : Int
  date : Int
  typ : OrderResultType
  order_id : Int
  order_id_ref : Option Int
  deriving Repr, DecidableEq

/-- A best-bid-offer quote entry (only the fields the broker reads). -/
structure Quote where
  bid : Int
  date : Int
  deriving Repr, DecidableEq

/-- The mutable Broker state (src/rotala-python). A quote snapshot maps
a symbol to `Option Quote`; `none` models a JSON null value, which the
code skips via the `if quote:` truthiness test. -/
structure BrokerState where
  cash : Int
  holdings : List (String × Int)
  pending_orders : List Order
  unexecuted_orders : List (Int × Order)
  trade_log : List OrderResult
  portfolio_values : List Int
  latest_quotes : List (String × Option Quote)
  ts : Int
  deriving Repr, DecidableEq

/-- `Broker._update_holdings`: create the key with value 0 on first
touch, then add the signed change. Keys are never removed. -/
def update_holdings (holdings : List (String × Int)) (position : String)
    (chg : Int) : List (String × Int) :=
  let h := if (dictGet holdings position).isNone
           then dictSet holdings position 0 else holdings
  let curr := (dictGet h position).getD 0
  dictSet h position (curr + chg)

/-- `Broker._process_order_result`. For Buy the cash is decremented by
`value`, for Sell incremented; if the resulting cash is negative the
code calls `exit(1)`. Holdings move by the signed quantity. If the
order id is tracked in `unexecuted_orders`, the code compares the fill
quantity with the tracked quantity: when the fill is larger it executes
`order["quantity"] -= result.quantity` on an `Order` object, a Python
TypeError; otherwise it deletes the entry. A Cancel result deletes both
`order_id` and `order_id_ref` (KeyError when absent, and `order_id_ref`
may be None); any other kind calls `exit(1)`. -/
def process_order_result (st : BrokerState) (result : OrderResult) :
    PyOutcome BrokerState :=
  if result.typ = .Buy ∨ result.typ = .Sell then
    let after_trade : Int :=
      if result.typ = .Buy then st.cash - result.value
      else st.cash + result.value
    let st := { st with cash := after_trade }
    if st.cash < (0 : Int) then
      .exited 1
    else
      let signed_qty : Int :=
        if result.typ = .Buy then result.quantity else -result.quantity
      let st := { st with
        holdings := update_holdings st.holdings result.symbol signed_qty }
      match dictGet st.unexecuted_orders result.order_id with
      | some order =>
          if result.quantity > order.qty then
            .error "TypeError: Order object does not support item assignment"
          else
            match dictDel st.unexecuted_orders result.order_id with
            | some m => .ok { st with unexecuted_orders := m }
            | none => .error "KeyError"
      | none => .ok st
  else
    if result.typ = .Cancel then
      match dictDel st.unexecuted_orders result.order_id with
      | none => .error "KeyError"
      | some m =>
          match result.order_id_ref with
          | none => .error "KeyError"
          | some ref =>
              match dictDel m ref with
              | none => .error "KeyError"
              | some m2 => .ok { st with unexecuted_orders := m2 }
    else
      .exited 1

/-- `Broker.get_position`: `self.holdings.get(symbol, 0)`. -/
def get_position (st : BrokerState) (symbol : String) : Int :=
  (dictGet st.holdings symbol).getD 0

/-- Inner loop of `Broker.get_current_value`: iterate the holdings in
dict order; `self.latest_quotes[symbol]` raises KeyError when the
symbol is missing from the snapshot; a falsy (null) quote is skipped. -/
def current_value_loop (quotes : List (String × Option Quote)) :
    Int → List (String × Int) → Except String Int
  | acc, [] => .ok acc
  | acc, (sym, qty) :: rest =>
      match dictGet quotes sym with
      | none => .error "KeyError"
      | some none => current_value_loop quotes acc rest
      | some (some q) => current_value_loop quotes (acc + qty * q.bid) rest

/-- `Broker.get_current_value`: cash plus quantity times bid over every
key of holdings (including zero positions). -/
def get_current_value (st : BrokerState) : Except String Int :=
  current_value_loop st.latest_quotes st.cash st.holdings

/-- `Broker.insert_order`: append to the pending buffer. -/
def insert_order (st : BrokerState) (order : Order) : BrokerState :=
  { st with pending_orders := st.pending_orders ++ [order] }

/-- The service response consumed by one `tick` call. -/
structure TickResponse where
  executed_orders : List OrderResult
  inserted_orders : List (Int × Order)
  has_next : Bool
  bbo : List (String × Option Quote)
  deriving Repr, DecidableEq

/-- The executed-results loop of `tick`: process each result in order,
appending it to the trade log; an exception or exit aborts the loop. -/
def process_results (st : BrokerState) :
    List OrderResult → PyOutcome BrokerState
  | [] => .ok st
  | r :: rs =>
      match process_order_result st r with
      | .ok st1 => process_results { st1 with trade_log := st1.trade_log ++ [r] } rs
      | .error e => .error e
      | .exited c => .exited c

/-- Register the newly inserted (resting) orders in
`unexecuted_orders`. -/
def register_inserted (m : List (Int × Order)) :
    List (Int × Order) → List (Int × Order)
  | [] => m
  | (oid, o) :: rest => register_inserted (dictSet m oid o) rest

/-- `Broker.tick` of src/rotala-python: transmit the whole pending
buffer as one batch (the wire output, first component), clear it,
process executed results, register inserted orders, then exit the
process with code 0 when `has_next` is false; otherwise adopt the new
snapshot, advance `ts` to the date of its first quote, and append the
portfolio valuation. -/
def tick (st : BrokerState) (resp : TickResponse) :
    List Order × PyOutcome BrokerState :=
  let wire := st.pending_orders
  let st := { st with pending_orders := [] }
  (wire,
    match process_results st resp.executed_orders with
    | .error e => .error e
    | .exited c => .exited c
    | .ok st1 =>
        let st2 := { st1 with
          unexecuted_orders :=
            register_inserted st1.unexecuted_orders resp.inserted_orders }
        if resp.has_next = false then
          .exited 0
        else
          let st3 := { st2 with latest_quotes := resp.bbo }
          match st3.latest_quotes with
          | [] =>
              match get_current_value st3 with
              | .error e => .error e
              | .ok v => .ok { st3 with portfolio_values := st3.portfolio_values ++ [v] }
          | (_, q0) :: _ =>
              match q0 with
              | none => .error "TypeError: NoneType is not subscriptable"
              | some q =>
                  let st4 := { st3 with ts := q.date }
                  match get_current_value st4 with
                  | .error e => .error e
                  | .ok v => .ok { st4 with portfolio_values := st4.portfolio_values ++ [v] })

/-- One observable transition of the rotala Broker: a caller inserting
an order, or a successfully completing `tick` against some service
response. -/
inductive Step : BrokerState → BrokerState → Prop where
  | insert (st : BrokerState) (o : Order) : Step st (insert_order st o)
  | tick (st st2 : BrokerState) (resp : TickResponse) (wire : List Order)
      (h : Rotala.tick st resp = (wire, .ok st2)) : Step st st2

/-- Reachability of one rotala Broker state from another through caller
operations. -/
def Reachable : BrokerState → BrokerState → Prop :=
  Relation.ReflTransGen Step

end Rotala

namespace Snek

/-- `OrderType` enum of src/example_clients/snek/src/broker.py (no
Cancel or Modify kinds). -/
inductive OrderType where
  | MarketSell | MarketBuy | LimitBuy | LimitSell
  deriving Repr, DecidableEq

/-- The snek `Order` value object. -/
structure Order where
  order_type : OrderType
  symbol : String
  qty : Int
  price : Option Int
  deriving Repr, DecidableEq

/-- `Order.__init__` of the snek broker: a Market-kind order must not
carry a price, a Limit-kind order must carry one, and the quantity must
be strictly positive (checks performed in that textual order). -/
def Order.init (t : OrderType) (s : String) (q : Int) (p : Option Int) :
    Except String Order :=
  if t = .MarketSell ∨ t = .MarketBuy then
    if p ≠ none then .error "Order price must be None for Market order"
    else if q ≤ 0 then .error "Order qty must be greater than zero"
    else .ok ⟨t, s, q, p⟩
  else
    if p = none then .error "Order price must be not None for Limit order"
    else if q ≤ 0 then .error "Order qty must be greater than zero"
    else .ok ⟨t, s, q, p⟩

/-- `TradeType` enum. -/
inductive TradeType where
  | Buy | Sell
  deriving Repr, DecidableEq

/-- A `Trade` reported by the service in `executed_trades`. -/
structure Trade where
  symbol : String
  value : Int
  quantity : Int
  date : Int
  typ : TradeType
  deriving Repr, DecidableEq

/-- Snek Broker state. -/
structure BrokerState where
  cash : Int
  holdings : List (String × Int)
  pending_orders : List Order
  finished : Bool
  trade_log : List Trade
  order_log : List Order
  portfolio_values : List Int
  latest_quotes : List (String × Option Rotala.Quote)
  deriving Repr, DecidableEq

/-- `Broker._update_holdings` (same shape as the rotala variant). -/
def update_holdings (holdings : List (String × Int)) (position : String)
    (chg : Int) : List (String × Int) :=
  let h := if (dictGet holdings position).isNone
           then dictSet holdings position 0 else holdings
  let curr := (dictGet h position).getD 0
  dictSet h position (curr + chg)

/-- `Broker._validate_order`: for a Sell-kind order the code reads
`self.holdings[order.symbol]` directly — a KeyError when the symbol was
never traded — and rejects when the position is 0 or smaller than the
requested quantity. Non-Sell orders are always accepted. -/
def validate_order (holdings : List (String × Int)) (order : Order) :
    Except String Bool :=
  if order.order_type = .MarketSell ∨ order.order_type = .LimitSell then
    match dictGet holdings order.symbol with
    | none => .error "KeyError"
    | some curr =>
        if curr = 0 ∨ order.qty > curr then .ok false else .ok true
  else
    .ok true

/-- `Broker._process_trade`: the cash is decremented by the trade value
for BOTH Buy and Sell; holdings move by the signed quantity. -/
def process_trade (st : BrokerState) (trade : Trade) : BrokerState :=
  let cash := st.cash - trade.value
  let signed_qty : Int :=
    if trade.typ = .Buy then trade.quantity else -trade.quantity
  { st with
    cash := cash,
    holdings := update_holdings st.holdings trade.symbol signed_qty }

/-- `Broker.insert_order`: ignored when finished, else append to the
pending buffer. -/
def insert_order (st : BrokerState) (order : Order) : BrokerState :=
  if st.finished then st
  else { st with pending_orders := st.pending_orders ++ [order] }

/-- `Broker.get_position`. -/
def get_position (st : BrokerState) (symbol : String) : Int :=
  (dictGet st.holdings symbol).getD 0

/-- `Broker.get_current_value` (same shape as the rotala variant). -/
def get_current_value (st : BrokerState) : Except String Int :=
  Rotala.current_value_loop st.latest_quotes st.cash st.holdings

/-- The flush loop of snek `tick`, on the pending buffer already
reversed: the code pops the LAST pending order first, validates it, and
transmits it immediately when accepted. Returns the wire sequence
transmitted so far, paired with the exception that aborted the loop, if
any. -/
def flush_loop (holdings : List (String × Int)) :
    List Order → List Order × Option String
  | [] => ([], none)
  | o :: rest =>
      match validate_order holdings o with
      | .error e => ([], some e)
      | .ok true =>
          (o :: (flush_loop holdings rest).1, (flush_loop holdings rest).2)
      | .ok false => flush_loop holdings rest

/-- The service response consumed by one snek `tick` call; the next
quote snapshot comes from a separate `fetch_quotes` call the code makes
when `has_next` is true. -/
structure TickResponse where
  executed_trades : List Trade
  inserted_orders : List Order
  has_next : Bool
  next_quotes : List (String × Option Rotala.Quote)
  deriving Repr, DecidableEq

/-- `Broker.tick` of the snek client. When already finished the code
prints and calls `exit(0)`. Otherwise it drains the pending buffer from
the back (LIFO), silently dropping every order that fails validation,
transmits each accepted order, processes the executed trades, logs the
inserted orders, sets `finished` when `has_next` is false (else adopts
the freshly fetched quotes), and appends the portfolio valuation. -/
def tick (st : BrokerState) (resp : TickResponse) :
    List Order × PyOutcome BrokerState :=
  if st.finished then
    ([], .exited 0)
  else
    let fl := flush_loop st.holdings st.pending_orders.reverse
    let wire := fl.1
    match fl.2 with
    | some e => (wire, .error e)
    | none =>
        let st := { st with pending_orders := [] }
        let st := resp.executed_trades.foldl
          (fun s t => { process_trade s t with trade_log := s.trade_log ++ [t] }) st
        let st := { st with order_log := st.order_log ++ resp.inserted_orders }
        let st :=
          if resp.has_next = false then { st with finished := true }
          else { st with latest_quotes := resp.next_quotes }
        (wire,
          match get_current_value st with
          | .error e => .error e
          | .ok v => .ok { st with portfolio_values := st.portfolio_values ++ [v] })

end Snek

/-! ### Dictionary lemmas -/

theorem dictGet_dictSet_self {α β : Type} [DecidableEq α]
    (m : List (α × β)) (k : α) (v : β) :
    dictGet (dictSet m k v) k = some v := by
  induction m with
  | nil => simp [dictSet, dictGet]
  | cons p rest ih =>
      obtain ⟨k0, v0⟩ := p
      by_cases h : k0 = k
      · simp [dictSet, h, dictGet]
      · simp [dictSet, h, dictGet, ih]

theorem dictGet_dictSet_ne {α β : Type} [DecidableEq α]
    (m : List (α × β)) (k k2 : α) (v : β) (h : k2 ≠ k) :
    dictGet (dictSet m k v) k2 = dictGet m k2 := by
  induction m with
  | nil => simp [dictSet, dictGet, Ne.symm h]
  | cons p rest ih =>
      obtain ⟨k0, v0⟩ := p
      by_cases hk : k0 = k
      · subst hk
        simp [dictSet, dictGet, Ne.symm h]
      · simp [dictSet, hk, dictGet, ih]

theorem mem_dictKeys_dictSet {α β : Type} [DecidableEq α]
    (m : List (α × β)) (k k2 : α) (v : β) (h : k2 ∈ dictKeys m) :
    k2 ∈ dictKeys (dictSet m k v) := by
  induction m with
  | nil => simp [dictKeys] at h
  | cons p rest ih =>
      obtain ⟨k0, v0⟩ := p
      by_cases hk : k0 = k
      · subst hk
        simpa [dictSet, dictKeys] using h
      · simp [dictSet, hk, dictKeys] at h ⊢
        rcases h with h | h
        · exact Or.inl h
        · exact Or.inr (by simpa [dictKeys] using ih (by simpa [dictKeys] using h))

theorem self_mem_dictKeys_dictSet {α β : Type} [DecidableEq α]
    (m : List (α × β)) (k : α) (v : β) :
    k ∈ dictKeys (dictSet m k v) := by
  induction m with
  | nil => simp [dictSet, dictKeys]
  | cons p rest ih =>
      obtain ⟨k0, v0⟩ := p
      by_cases hk : k0 = k
      · simp [dictSet, hk, dictKeys]
      · simp [dictSet, hk, dictKeys]
        right
        simpa [dictKeys] using ih

theorem update_holdings_dictGet_self (h : List (String × Int)) (p : String)
    (c : Int) :
    dictGet (Rotala.update_holdings h p c) p
      = some ((dictGet h p).getD 0 + c) := by
  unfold Rotala.update_holdings
  cases hg : dictGet h p with
  | none =>
      simp only [hg, Option.isNone_none, if_true]
      rw [dictGet_dictSet_self, dictGet_dictSet_self]
      simp
  | some v =>
      simp only [hg, Option.isNone_some, Bool.false_eq_true, if_false]
      rw [dictGet_dictSet_self]

theorem update_holdings_dictGet_ne (h : List (String × Int)) (p s : String)
    (c : Int) (hne : s ≠ p) :
    dictGet (Rotala.update_holdings h p c) s = dictGet h s := by
  unfold Rotala.update_holdings
  cases hg : dictGet h p with
  | none =>
      simp only [hg, Option.isNone_none, if_true]
      rw [dictGet_dictSet_ne _ _ _ _ hne, dictGet_dictSet_ne _ _ _ _ hne]
  | some v =>
      simp only [hg, Option.isNone_some, Bool.false_eq_true, if_false]
      rw [dictGet_dictSet_ne _ _ _ _ hne]

theorem mem_dictKeys_update_holdings (h : List (String × Int)) (p s : String)
    (c : Int) (hs : s ∈ dictKeys h) :
    s ∈ dictKeys (Rotala.update_holdings h p c) := by
  unfold Rotala.update_holdings
  cases hg : dictGet h p with
  | none =>
      simp only [hg, Option.isNone_none, if_true]
      exact mem_dictKeys_dictSet _ _ _ _ (mem_dictKeys_dictSet _ _ _ _ hs)
  | some v =>
      simp only [hg, Option.isNone_some, Bool.false_eq_true, if_false]
      exact mem_dictKeys_dictSet _ _ _ _ hs

theorem self_mem_dictKeys_update_holdings (h : List (String × Int))
    (p : String) (c : Int) :
    p ∈ dictKeys (Rotala.update_holdings h p c) := by
  unfold Rotala.update_holdings
  cases hg : dictGet h p with
  | none =>
      simp only [hg, Option.isNone_none, if_true]
      exact self_mem_dictKeys_dictSet _ _ _
  | some v =>
      simp only [hg, Option.isNone_some, Bool.false_eq_true, if_false]
      exact self_mem_dictKeys_dictSet _ _ _

theorem snek_update_holdings_eq (h : List (String × Int)) (p : String)
    (c : Int) : Snek.update_holdings h p c = Rotala.update_holdings h p c := rfl

/-! ### Reconciliation lemmas (rotala) -/

theorem process_order_result_ok_frame (st st1 : Rotala.BrokerState)
    (r : Rotala.OrderResult)
    (h : Rotala.process_order_result st r = .ok st1) :
    st1.pending_orders = st.pending_orders
    ∧ st1.trade_log = st.trade_log
    ∧ st1.latest_quotes = st.latest_quotes
    ∧ (∀ s, s ∈ dictKeys st.holdings → s ∈ dictKeys st1.holdings) := by
  unfold Rotala.process_order_result at h
  by_cases h1 : r.typ = .Buy ∨ r.typ = .Sell
  · rcases h1 with hb | hb
    · simp only [hb, if_true, true_or, reduceCtorEq, false_or] at h
      split at h
      · simp at h
      · split at h
        · split at h
          · simp at h
          · split at h
            · injection h with h
              subst h
              exact ⟨rfl, rfl, rfl, fun s hs => mem_dictKeys_update_holdings _ _ _ _ hs⟩
            · simp at h
        · injection h with h
          subst h
          exact ⟨rfl, rfl, rfl, fun s hs => mem_dictKeys_update_holdings _ _ _ _ hs⟩
    · simp only [hb, if_true, or_true, reduceCtorEq, false_or, if_false] at h
      split at h
      · simp at h
      · split at h
        · split at h
          · simp at h
          · split at h
            · injection h with h
              subst h
              exact ⟨rfl, rfl, rfl, fun s hs => mem_dictKeys_update_holdings _ _ _ _ hs⟩
            · simp at h
        · injection h with h
          subst h
          exact ⟨rfl, rfl, rfl, fun s hs => mem_dictKeys_update_holdings _ _ _ _ hs⟩
  · simp only [h1, if_false] at h
    split at h
    · split at h
      · simp at h
      · split at h
        · simp at h
        · split at h
          · simp at h
          · injection h with h
            subst h
            exact ⟨rfl, rfl, rfl, fun s hs => hs⟩
    · simp at h

theorem process_order_result_buy (st st1 : Rotala.BrokerState)
    (r : Rotala.OrderResult) (hb : r.typ = .Buy)
    (h : Rotala.process_order_result st r = .ok st1) :
    st1.cash = st.cash - r.value
    ∧ dictGet st1.holdings r.symbol
        = some ((dictGet st.holdings r.symbol).getD 0 + r.quantity) := by
  unfold Rotala.process_order_result at h
  simp only [hb, if_true, true_or, reduceCtorEq, false_or] at h
  split at h
  · simp at h
  · split at h
    · split at h
      · simp at h
      · split at h
        · injection h with h
          subst h
          exact ⟨rfl, update_holdings_dictGet_self _ _ _⟩
        · simp at h
    · injection h with h
      subst h
      exact ⟨rfl, update_holdings_dictGet_self _ _ _⟩

theorem process_order_result_sell (st st1 : Rotala.BrokerState)
    (r : Rotala.OrderResult) (hb : r.typ = .Sell)
    (h : Rotala.process_order_result st r = .ok st1) :
    st1.cash = st.cash + r.value
    ∧ dictGet st1.holdings r.symbol
        = some ((dictGet st.holdings r.symbol).getD 0 - r.quantity) := by
  unfold Rotala.process_order_result at h
  simp only [hb, if_true, or_true, reduceCtorEq, false_or, if_false] at h
  split at h
  · simp at h
  · split at h
    · split at h
      · simp at h
      · split at h
        · injection h with h
          subst h
          refine ⟨rfl, ?_⟩
          rw [update_holdings_dictGet_self]
          ring_nf
        · simp at h
    · injection h with h
      subst h
      refine ⟨rfl, ?_⟩
      rw [update_holdings_dictGet_self]
      ring_nf

theorem process_results_ok_frame (rs : List Rotala.OrderResult)
    (st st1 : Rotala.BrokerState)
    (h : Rotala.process_results st rs = .ok st1) :
    st1.pending_orders = st.pending_orders
    ∧ st1.latest_quotes = st.latest_quotes
    ∧ (∀ s, s ∈ dictKeys st.holdings → s ∈ dictKeys st1.holdings) := by
  induction rs generalizing st with
  | nil =>
      unfold Rotala.process_results at h
      injection h with h
      subst h
      exact ⟨rfl, rfl, fun s hs => hs⟩
  | cons r rs ih =>
      unfold Rotala.process_results at h
      split at h
      case _ st2 heq =>
          obtain ⟨hp, ht, hq, hk⟩ := process_order_result_ok_frame _ _ _ heq
          obtain ⟨hp2, hq2, hk2⟩ := ih _ h
          refine ⟨by rw [hp2]; exact hp, by rw [hq2]; exact hq, ?_⟩
          intro s hs
          exact hk2 s (hk s hs)
      case _ e => simp at h
      case _ c => simp at h

theorem tick_wire (st : Rotala.BrokerState) (resp : Rotala.TickResponse) :
    (Rotala.tick st resp).1 = st.pending_orders := rfl

theorem tick_ok_frame (st st1 : Rotala.BrokerState)
    (resp : Rotala.TickResponse) (wire : List Rotala.Order)
    (h : Rotala.tick st resp = (wire, .ok st1)) :
    st1.pending_orders = []
    ∧ (∀ s, s ∈ dictKeys st.holdings → s ∈ dictKeys st1.holdings) := by
  unfold Rotala.tick at h
  rw [Prod.mk.injEq] at h
  obtain ⟨hw, h⟩ := h
  split at h
  case _ e heq => simp at h
  case _ c heq => simp at h
  case _ st2 heq =>
      obtain ⟨hp2, hq2, hk2⟩ := process_results_ok_frame _ _ _ heq
      simp only [] at h
      split at h
      · simp at h
      · split at h
        · split at h
          · simp at h
          · injection h with h
            subst h
            exact ⟨hp2, hk2⟩
        · split at h
          · simp at h
          · split at h
            · simp at h
            · injection h with h
              subst h
              exact ⟨hp2, hk2⟩

theorem step_holdings_keys_mono {st st1 : Rotala.BrokerState}
    (h : Rotala.Step st st1) :
    ∀ s, s ∈ dictKeys st.holdings → s ∈ dictKeys st1.holdings := by
  cases h with
  | insert o =>
      intro s hs
      simpa [Rotala.insert_order] using hs
  | tick st2 resp wire hh =>
      exact (tick_ok_frame _ _ _ _ hh).2

theorem reachable_holdings_keys_mono {st st1 : Rotala.BrokerState}
    (h : Rotala.Reachable st st1) :
    ∀ s, s ∈ dictKeys st.holdings → s ∈ dictKeys st1.holdings := by
  induction h with
  | refl => exact fun s hs => hs
  | tail h1 h2 ih => exact fun s hs => step_holdings_keys_mono h2 s (ih s hs)

theorem current_value_loop_missing (quotes : List (String × Option Rotala.Quote))
    (holdings : List (String × Int)) (acc : Int) (sym : String)
    (hmem : sym ∈ dictKeys holdings) (hq : dictGet quotes sym = none) :
    Rotala.current_value_loop quotes acc holdings = .error "KeyError" := by
  induction holdings generalizing acc with
  | nil => simp [dictKeys] at hmem
  | cons p rest ih =>
      obtain ⟨s0, q0⟩ := p
      unfold Rotala.current_value_loop
      by_cases hs : s0 = sym
      · subst hs
        rw [hq]
      · have hrest : sym ∈ dictKeys rest := by
          simp [dictKeys] at hmem
          rcases hmem with hh | hh
          · exact absurd hh.symm hs
          · simpa [dictKeys] using hh
        cases hval : dictGet quotes s0 with
        | none => rfl
        | some q1 =>
            cases q1 with
            | none => exact ih _ hrest
            | some q2 => exact ih _ hrest

theorem current_value_loop_zero_head (quotes : List (String × Option Rotala.Quote))
    (rest : List (String × Int)) (acc : Int) (sym : String)
    (q : Option Rotala.Quote) (hq : dictGet quotes sym = some q) :
    Rotala.current_value_loop quotes acc ((sym, 0) :: rest)
      = Rotala.current_value_loop quotes acc rest := by
  conv_lhs => unfold Rotala.current_value_loop
  rw [hq]
  cases q with
  | none => rfl
  | some q2 => simp

/-! ### Flush lemmas (snek) -/

theorem flush_loop_wire_validated (holdings : List (String × Int))
    (l : List Snek.Order) :
    ∀ o2 ∈ (Snek.flush_loop holdings l).1,
      Snek.validate_order holdings o2 = .ok true := by
  induction l with
  | nil => simp [Snek.flush_loop]
  | cons o rest ih =>
      intro o2 h2
      unfold Snek.flush_loop at h2
      split at h2
      next e heq => simp at h2
      next heq =>
          simp only [List.mem_cons] at h2
          rcases h2 with h2 | h2
          · subst h2; exact heq
          · exact ih o2 h2
      next heq => exact ih o2 h2

/-- Whether flush-time validation lets the order through to the wire
(the Boolean verdict of `validate_order`, with an exception counting as
not-accepted). -/
def flush_accepts (holdings : List (String × Int)) (o : Snek.Order) : Bool :=
  match Snek.validate_order holdings o with
  | .ok true => true
  | _ => false

theorem flush_loop_cons_rejected (holdings : List (String × Int))
    (o : Snek.Order) (l : List Snek.Order)
    (h : Snek.validate_order holdings o = .ok false) :
    Snek.flush_loop holdings (o :: l) = Snek.flush_loop holdings l := by
  conv_lhs => unfold Snek.flush_loop
  rw [h]

theorem flush_loop_cons_accepted (holdings : List (String × Int))
    (o : Snek.Order) (l : List Snek.Order)
    (h : Snek.validate_order holdings o = .ok true) :
    Snek.flush_loop holdings (o :: l)
      = (o :: (Snek.flush_loop holdings l).1,
          (Snek.flush_loop holdings l).2) := by
  conv_lhs => unfold Snek.flush_loop
  rw [h]

theorem flush_loop_cons_error (holdings : List (String × Int))
    (o : Snek.Order) (l : List Snek.Order) (e : String)
    (h : Snek.validate_order holdings o = .error e) :
    Snek.flush_loop holdings (o :: l) = ([], some e) := by
  conv_lhs => unfold Snek.flush_loop
  rw [h]

theorem flush_loop_none_eq_filter (holdings : List (String × Int))
    (l : List Snek.Order) (h : (Snek.flush_loop holdings l).2 = none) :
    (Snek.flush_loop holdings l).1 = l.filter (flush_accepts holdings) := by
  induction l with
  | nil => simp [Snek.flush_loop]
  | cons o rest ih =>
      cases hv : Snek.validate_order holdings o with
      | error e =>
          rw [flush_loop_cons_error _ _ _ _ hv] at h
          simp at h
      | ok b =>
          have hacc : flush_accepts holdings o = b := by
            unfold flush_accepts
            rw [hv]
            cases b <;> rfl
          cases b
          · rw [flush_loop_cons_rejected _ _ _ hv] at h ⊢
            rw [List.filter_cons, hacc]
            simp only [Bool.false_eq_true, if_false]
            exact ih h
          · rw [flush_loop_cons_accepted _ _ _ hv] at h ⊢
            rw [List.filter_cons, hacc]
            simp only [if_true]
            simp only [List.cons.injEq, true_and]
            exact ih h

theorem snek_tick_drop_rejected (st : Snek.BrokerState)
    (resp : Snek.TickResponse) (o : Snek.Order)
    (h : Snek.validate_order st.holdings o = .ok false) :
    Snek.tick { st with pending_orders := st.pending_orders ++ [o] } resp
      = Snek.tick st resp := by
  unfold Snek.tick
  by_cases hf : st.finished
  · simp [hf]
  · simp only [hf, if_false]
    rw [List.reverse_append, List.reverse_singleton, List.singleton_append]
    rw [flush_loop_cons_rejected _ _ _ h]

theorem mem_dictKeys_of_dictGet {α β : Type} [DecidableEq α]
    (m : List (α × β)) (k : α) (v : β) (h : dictGet m k = some v) :
    k ∈ dictKeys m := by
  induction m with
  | nil => simp [dictGet] at h
  | cons p rest ih =>
      obtain ⟨k0, v0⟩ := p
      by_cases hk : k0 = k
      · subst hk
        simp [dictKeys]
      · simp only [dictGet, hk, if_false] at h
        simp only [dictKeys, List.map_cons, List.mem_cons]
        right
        simpa [dictKeys] using ih h

/-! ### Claim theorems -/

/-- Claim C1, counterexample: in the snek broker, reconciling a Sell
trade of value 100 against cash 1000 yields cash 900 — the cash is
decremented, not incremented, by the traded value. -/
theorem claim_C1_counterexample :
    (Snek.process_trade
        ⟨1000, [("SYM", 10)], [], false, [], [], [], []⟩
        ⟨"SYM", 100, 5, 0, .Sell⟩).cash = 900
    ∧ (900 : Int) ≠ 1000 + 100 :=
  ⟨rfl, by decide⟩

/-- Claim C1 (amended): in the rotala-python broker a reconciled Buy
fill decrements cash by traded value and moves the position up by the
fill quantity, a Sell fill increments cash and moves the position down,
and Scenario A holds concretely; in the snek broker `_process_trade`
decrements cash by the traded value for BOTH Buy and Sell trades. -/
theorem claim_C1_fill_arithmetic :
    (∀ (st st1 : Rotala.BrokerState) (r : Rotala.OrderResult),
      r.typ = .Buy → Rotala.process_order_result st r = .ok st1 →
        st1.cash = st.cash - r.value
        ∧ dictGet st1.holdings r.symbol
            = some ((dictGet st.holdings r.symbol).getD 0 + r.quantity))
    ∧ (∀ (st st1 : Rotala.BrokerState) (r : Rotala.OrderResult),
      r.typ = .Sell → Rotala.process_order_result st r = .ok st1 →
        st1.cash = st.cash + r.value
        ∧ dictGet st1.holdings r.symbol
            = some ((dictGet st.holdings r.symbol).getD 0 - r.quantity))
    ∧ (∀ (st : Snek.BrokerState) (t : Snek.Trade),
        (Snek.process_trade st t).cash = st.cash - t.value)
    ∧ Rotala.process_order_result
        ⟨1000, [], [], [], [], [], [("SYM", some ⟨10, 0⟩)], 0⟩
        ⟨"SYM", 100, 10, 0, .Buy, 1, none⟩
      = .ok ⟨900, [("SYM", 10)], [], [], [], [], [("SYM", some ⟨10, 0⟩)], 0⟩ := by
  refine ⟨?_, ?_, ?_, rfl⟩
  · exact fun st st1 r hb h => process_order_result_buy st st1 r hb h
  · exact fun st st1 r hs h => process_order_result_sell st st1 r hs h
  · intro st t
    rfl

/-- Witness for claim C1: the Sell clause applied to a concrete state
with cash 500 and position 5, filled for quantity 3 and value 30. -/
theorem claim_C1_witness :
    (530 : Int) = 500 + 30
    ∧ dictGet [("S", (2 : Int))] "S"
        = some ((dictGet [("S", (5 : Int))] "S").getD 0 - 3) := by
  have h := claim_C1_fill_arithmetic.2.1
    ⟨500, [("S", 5)], [], [], [], [], [], 0⟩
    ⟨530, [("S", 2)], [], [], [], [], [], 0⟩
    ⟨"S", 30, 3, 0, .Sell, 7, none⟩ rfl (by rfl)
  exact h

/-- Claim C2, counterexample: with cash 50, reconciling a Buy fill of
value 100 drives cash negative and the code terminates the host
process with exit code 1 (modelled as `PyOutcome.exited 1`) instead of
surfacing a recoverable InsolvencyError to the caller. -/
theorem claim_C2_counterexample :
    Rotala.process_order_result ⟨50, [], [], [], [], [], [], 0⟩
        ⟨"SYM", 100, 10, 0, .Buy, 1, none⟩
      = .exited 1 := rfl

/-- Claim C2 (amended): whenever applying a Buy or Sell fill would make
cash negative, the rotala-python broker logs and terminates the host
process with exit code 1; the cash decrement has already been applied
in memory and holdings are still those from before the fill at the
moment of exit, but no error is surfaced to the caller. -/
theorem claim_C2_insolvency_exit (st : Rotala.BrokerState)
    (r : Rotala.OrderResult)
    (h : (r.typ = .Buy ∧ st.cash - r.value < 0)
       ∨ (r.typ = .Sell ∧ st.cash + r.value < 0)) :
    Rotala.process_order_result st r = .exited 1 := by
  unfold Rotala.process_order_result
  rcases h with ⟨hb, hlt⟩ | ⟨hb, hlt⟩
  · simp only [hb, if_true, true_or, reduceCtorEq, false_or]
    split
    · rfl
    · next hcond => omega
  · simp only [hb, if_true, or_true, reduceCtorEq, false_or, if_false]
    split
    · rfl
    · next hcond => omega

/-- Witness for claim C2: an insolvent Sell fill (negative value) at a
concrete state. -/
theorem claim_C2_witness :
    Rotala.process_order_result ⟨10, [], [], [], [], [], [], 0⟩
        ⟨"SYM", -40, 2, 0, .Sell, 3, none⟩
      = .exited 1 :=
  claim_C2_insolvency_exit _ _ (Or.inr ⟨rfl, by decide⟩)

/-- Claim C3, counterexample: a Sell order on a never-traded symbol
makes `_validate_order` raise a KeyError (the code indexes
`self.holdings[order.symbol]` directly) instead of rejecting the
order. -/
theorem claim_C3_counterexample :
    Snek.validate_order [] ⟨Snek.OrderType.MarketSell, "SYM", 5, none⟩
      = .error "KeyError" := rfl

/-- Claim C3 (amended): for a Sell-kind order with positive quantity in
the snek broker, flush-time validation accepts exactly when the symbol
is a holdings key with position strictly positive and quantity at most
the position; quantity equal to the position is accepted and one unit
greater is rejected; a never-traded symbol raises a KeyError instead of
being rejected; and every order transmitted by the snek flush loop
passed this validation (the rotala-python tick transmits with no
validation at all). -/
theorem claim_C3_sell_validation (holdings : List (String × Int))
    (o : Snek.Order) (hq : 0 < o.qty)
    (hsell : o.order_type = .MarketSell ∨ o.order_type = .LimitSell) :
    (Snek.validate_order holdings o = .ok true ↔
      ∃ p, dictGet holdings o.symbol = some p ∧ 0 < p ∧ o.qty ≤ p)
    ∧ (dictGet holdings o.symbol = none →
        Snek.validate_order holdings o = .error "KeyError")
    ∧ (∀ p, dictGet holdings o.symbol = some p → 0 < p → o.qty = p →
        Snek.validate_order holdings o = .ok true)
    ∧ (∀ p, dictGet holdings o.symbol = some p → o.qty = p + 1 →
        Snek.validate_order holdings o = .ok false)
    ∧ (∀ l, ∀ o2 ∈ (Snek.flush_loop holdings l).1,
        Snek.validate_order holdings o2 = .ok true) := by
  unfold Snek.validate_order
  rw [if_pos hsell]
  refine ⟨?_, ?_, ?_, ?_, ?_⟩
  · cases hg : dictGet holdings o.symbol with
    | none => simp
    | some p =>
        show (if p = 0 ∨ o.qty > p then (Except.ok false : Except String Bool)
            else Except.ok true) = Except.ok true
          ↔ ∃ p2, (some p : Option Int) = some p2 ∧ 0 < p2 ∧ o.qty ≤ p2
        by_cases hc : p = 0 ∨ o.qty > p
        · rw [if_pos hc]
          simp only [reduceCtorEq, Except.ok.injEq, Bool.false_eq_true, false_iff]
          rintro ⟨p2, hp2, hpos, hle⟩
          injection hp2 with hp2
          subst hp2
          omega
        · rw [if_neg hc]
          simp only [eq_self_iff_true, true_iff]
          exact ⟨p, rfl, by omega, by omega⟩
  · intro hg
    rw [hg]
  · intro p hg hpos hqe
    rw [hg]
    show (if p = 0 ∨ o.qty > p then (Except.ok false : Except String Bool)
        else Except.ok true) = Except.ok true
    rw [if_neg (by omega)]
  · intro p hg hqe
    rw [hg]
    show (if p = 0 ∨ o.qty > p then (Except.ok false : Except String Bool)
        else Except.ok true) = Except.ok false
    rw [if_pos (by omega)]
  · intro l o2 h2
    have := flush_loop_wire_validated holdings l o2 h2
    exact this

/-- Witness for claim C3: a MarketSell of the full position 5 at a
concrete holdings state is accepted. -/
theorem claim_C3_witness :
    (0 : Int) < 5
    ∧ Snek.validate_order [("SYM", 5)]
        ⟨Snek.OrderType.MarketSell, "SYM", 5, none⟩ = .ok true := by
  refine ⟨by decide, ?_⟩
  exact (claim_C3_sell_validation [("SYM", 5)]
      ⟨Snek.OrderType.MarketSell, "SYM", 5, none⟩ (by decide)
      (Or.inl rfl)).1.mpr ⟨5, rfl, by decide, by decide⟩

/-- Claim C4: the record-fill step of `_process_order_result` is
broken. With an order of quantity 10 resting under order id 1, a
partial fill of quantity 4 DELETES the tracked entry (the comparison is
inverted, so any fill no larger than the remaining quantity falls into
the delete branch), while a fill of quantity 15 hits
`order["quantity"] -= result.quantity` on an `Order` object, a Python
TypeError — the claimed decrement-and-remove-at-zero behaviour never
happens. -/
theorem claim_C4_record_fill_bug :
    Rotala.process_order_result
        ⟨1000, [], [], [(1, ⟨.LimitBuy, "SYM", 10, some 9, none⟩)], [], [], [], 0⟩
        ⟨"SYM", 40, 4, 0, .Buy, 1, none⟩
      = .ok ⟨960, [("SYM", 4)], [], [], [], [], [], 0⟩
    ∧ Rotala.process_order_result
        ⟨1000, [], [], [(1, ⟨.LimitBuy, "SYM", 10, some 9, none⟩)], [], [], [], 0⟩
        ⟨"SYM", 150, 15, 0, .Buy, 1, none⟩
      = .error "TypeError: Order object does not support item assignment" :=
  ⟨rfl, rfl⟩

theorem snek_fold_trades_frame (l : List Snek.Trade) (st : Snek.BrokerState) :
    (l.foldl (fun s t =>
      { Snek.process_trade s t with trade_log := s.trade_log ++ [t] })
      st).pending_orders = st.pending_orders
    ∧ (l.foldl (fun s t =>
      { Snek.process_trade s t with trade_log := s.trade_log ++ [t] })
      st).finished = st.finished := by
  induction l generalizing st with
  | nil => exact ⟨rfl, rfl⟩
  | cons t l ih =>
      rw [List.foldl_cons]
      obtain ⟨h1, h2⟩ := ih _
      exact ⟨h1.trans rfl, h2.trans rfl⟩

/-- Claim C5, counterexample: calling `tick` on a finished snek broker
terminates the host process with exit code 0 (after printing), rather
than failing with an InvalidOperationError surfaced to the caller. -/
theorem claim_C5_counterexample :
    Snek.tick ⟨1000, [], [], true, [], [], [], []⟩ ⟨[], [], true, []⟩
      = ([], .exited 0) := rfl

/-- Claim C5 (amended): the snek broker sets `finished` exactly when
the service reports no next step, and every tick on a finished broker
terminates the process with exit code 0 instead of raising an error;
the rotala-python broker has no Finished state at all — its tick
terminates the process with exit code 0 at the very step in which
`has_next` is false. -/
theorem claim_C5_finished_semantics :
    (∀ (st : Snek.BrokerState) (resp : Snek.TickResponse),
      st.finished = true → Snek.tick st resp = ([], .exited 0))
    ∧ (∀ (st st1 : Snek.BrokerState) (resp : Snek.TickResponse)
        (wire : List Snek.Order),
        Snek.tick st resp = (wire, .ok st1) → st1.finished = !resp.has_next)
    ∧ (∀ (st : Rotala.BrokerState) (resp : Rotala.TickResponse),
        resp.executed_orders = [] → resp.has_next = false →
        (Rotala.tick st resp).2 = .exited 0) := by
  refine ⟨?_, ?_, ?_⟩
  · intro st resp h
    simp [Snek.tick, h]
  · intro st st1 resp wire h
    unfold Snek.tick at h
    by_cases hf : st.finished
    · rw [if_pos hf] at h
      rw [Prod.mk.injEq] at h
      simp at h
    · rw [if_neg hf] at h
      rw [Bool.not_eq_true] at hf
      simp only [] at h
      split at h
      · rw [Prod.mk.injEq] at h
        simp at h
      · rw [Prod.mk.injEq] at h
        obtain ⟨hw, h⟩ := h
        split at h
        · simp at h
        · injection h with h
          subst h
          cases hn : resp.has_next
          · simp [hn]
          · simp [hn, snek_fold_trades_frame, hf]
  · intro st resp h1 h2
    unfold Rotala.tick
    rw [h1]
    simp [Rotala.process_results, h2]

/-- Witness for claim C5: ticking a concrete finished snek broker. -/
theorem claim_C5_witness :
    (⟨1000, [], [], true, [], [], [], []⟩ : Snek.BrokerState).finished = true
    ∧ Snek.tick ⟨1000, [], [], true, [], [], [], []⟩ ⟨[], [], false, []⟩
        = ([], .exited 0) :=
  ⟨rfl, claim_C5_finished_semantics.1 _ _ rfl⟩

/-- Claim C6, counterexample: the snek flush drains PendingOrders with
`pop()`, so two pending orders inserted as A then B reach the wire as
B then A — the reverse of insertion order, not FIFO. -/
theorem claim_C6_counterexample :
    (Snek.tick
        ⟨1000, [], [⟨.MarketBuy, "A", 1, none⟩, ⟨.MarketBuy, "B", 1, none⟩],
          false, [], [], [], []⟩
        ⟨[], [], true, []⟩).1
      = [⟨.MarketBuy, "B", 1, none⟩, ⟨.MarketBuy, "A", 1, none⟩]
    ∧ ([⟨.MarketBuy, "B", 1, none⟩, ⟨.MarketBuy, "A", 1, none⟩]
        : List Snek.Order)
      ≠ [⟨.MarketBuy, "A", 1, none⟩, ⟨.MarketBuy, "B", 1, none⟩] :=
  ⟨rfl, by decide⟩

/-- Claim C6 (amended): the rotala-python tick transmits the entire
pending buffer as one batch in insertion (FIFO) order and leaves
PendingOrders empty on success; the snek tick drains the buffer with
`pop()`, transmitting the validated orders in REVERSE insertion (LIFO)
order, and also leaves PendingOrders empty on success. -/
theorem claim_C6_flush_order :
    (∀ (st : Rotala.BrokerState) (resp : Rotala.TickResponse),
      (Rotala.tick st resp).1 = st.pending_orders)
    ∧ (∀ (st : Rotala.BrokerState) (o : Rotala.Order),
      (Rotala.insert_order st o).pending_orders = st.pending_orders ++ [o])
    ∧ (∀ (st st1 : Rotala.BrokerState) (resp : Rotala.TickResponse)
        (wire : List Rotala.Order),
        Rotala.tick st resp = (wire, .ok st1) → st1.pending_orders = [])
    ∧ (∀ (st : Snek.BrokerState) (resp : Snek.TickResponse),
        st.finished = false →
        (Snek.flush_loop st.holdings st.pending_orders.reverse).2 = none →
        (Snek.tick st resp).1
          = st.pending_orders.reverse.filter (flush_accepts st.holdings))
    ∧ (∀ (st st1 : Snek.BrokerState) (resp : Snek.TickResponse)
        (wire : List Snek.Order),
        Snek.tick st resp = (wire, .ok st1) → st1.pending_orders = []) := by
  refine ⟨?_, ?_, ?_, ?_, ?_⟩
  · intro st resp
    rfl
  · intro st o
    rfl
  · intro st st1 resp wire h
    exact (tick_ok_frame _ _ _ _ h).1
  · intro st resp hf hflush
    unfold Snek.tick
    rw [if_neg (by rw [hf]; simp)]
    simp only []
    split
    · next e heq =>
        rw [heq] at hflush
        simp at hflush
    · exact flush_loop_none_eq_filter _ _ hflush
  · intro st st1 resp wire h
    unfold Snek.tick at h
    by_cases hf : st.finished
    · rw [if_pos hf] at h
      rw [Prod.mk.injEq] at h
      simp at h
    · rw [if_neg hf] at h
      simp only [] at h
      split at h
      · rw [Prod.mk.injEq] at h
        simp at h
      · rw [Prod.mk.injEq] at h
        obtain ⟨hw, h⟩ := h
        split at h
        · simp at h
        · injection h with h
          subst h
          cases hn : resp.has_next <;> simp [hn, snek_fold_trades_frame]

/-- Witness for claim C6: the snek LIFO clause applied to a concrete
two-order pending buffer. -/
theorem claim_C6_witness :
    (Snek.tick
        ⟨1000, [], [⟨.MarketBuy, "A", 1, none⟩, ⟨.MarketBuy, "B", 1, none⟩],
          false, [], [], [], []⟩
        ⟨[], [], false, []⟩).1
      = [⟨.MarketBuy, "A", 1, none⟩,
          ⟨.MarketBuy, "B", 1, none⟩].reverse.filter (flush_accepts []) := by
  exact claim_C6_flush_order.2.2.2.1
    ⟨1000, [], [⟨.MarketBuy, "A", 1, none⟩, ⟨.MarketBuy, "B", 1, none⟩],
      false, [], [], [], []⟩
    ⟨[], [], false, []⟩ rfl rfl

/-- Claim C7: the serialize/deserialize round trip never reproduces an
equivalent Order. A Market order (price None, no reference id)
serializes without the `price` and `order_id_ref` keys, so `from_json`
raises a KeyError on the unconditional `to_dict` lookups; and even when
both optional keys are present, `from_json` passes the raw kind string
through to the constructor (no `OrderType(...)` conversion, unlike
`from_dict`), so the resulting object differs from the original in its
`order_type` field. -/
theorem claim_C7_roundtrip_bug :
    Rotala.Order.from_json
        (Rotala.Order.serialize ⟨.MarketBuy, "SYM", 10, none, none⟩)
      = .error "KeyError: price"
    ∧ Rotala.Order.from_json
        (Rotala.Order.serialize ⟨.LimitBuy, "SYM", 10, some 9, some 1⟩)
      = .ok ⟨.str "LimitBuy", .str "SYM", .num 10, .num 9, .num 1⟩
    ∧ (⟨.str "LimitBuy", .str "SYM", .num 10, .num 9, .num 1⟩
        : Rotala.PyOrder)
      ≠ Rotala.Order.toPy ⟨.LimitBuy, "SYM", 10, some 9, some 1⟩ :=
  ⟨rfl, rfl, by decide⟩

/-- Claim C8, counterexample: the rotala-python Order constructor
accepts a LimitBuy with no price and a MarketBuy with negative
quantity — neither fails with a validation error as claimed. -/
theorem claim_C8_counterexample :
    Rotala.Order.init .LimitBuy "SYM" 10 none none
        = .ok ⟨.LimitBuy, "SYM", 10, none, none⟩
    ∧ Rotala.Order.init .MarketBuy "SYM" (-5) none none
        = .ok ⟨.MarketBuy, "SYM", -5, none, none⟩ :=
  ⟨rfl, rfl⟩

/-- Claim C8 (amended): the snek Order constructor fails exactly when a
price is set on a Market-kind order, or absent on a Limit-kind order,
or the quantity is not positive (the snek enum has no Cancel kind); the
rotala-python Order constructor fails exactly when a price is set on a
Market-kind order — a missing Limit price or a non-positive quantity is
accepted without error. -/
theorem claim_C8_construction :
    (∀ (t : Rotala.OrderType) (s : String) (q : Int) (p : Option Int)
        (r : Option Int),
      (∃ e, Rotala.Order.init t s q p r = .error e) ↔
        ((t = .MarketSell ∨ t = .MarketBuy) ∧ p ≠ none))
    ∧ (∀ (t : Snek.OrderType) (s : String) (q : Int) (p : Option Int),
      (∃ e, Snek.Order.init t s q p = .error e) ↔
        (((t = .MarketSell ∨ t = .MarketBuy) ∧ p ≠ none)
         ∨ (¬(t = .MarketSell ∨ t = .MarketBuy) ∧ p = none)
         ∨ q ≤ 0)) := by
  constructor
  · intro t s q p r
    unfold Rotala.Order.init
    by_cases hc : (t = .MarketSell ∨ t = .MarketBuy) ∧ p ≠ none
    · rw [if_pos hc]
      simp [hc]
    · rw [if_neg hc]
      simp [hc]
  · intro t s q p
    unfold Snek.Order.init
    by_cases hm : t = .MarketSell ∨ t = .MarketBuy
    · rw [if_pos hm]
      by_cases hp : p ≠ none
      · rw [if_pos hp]
        simp [hm, hp]
      · rw [if_neg hp]
        by_cases hq0 : q ≤ 0
        · rw [if_pos hq0]
          simp [hm, hp, hq0]
        · rw [if_neg hq0]
          simp [hm, hp, hq0]
    · rw [if_neg hm]
      by_cases hp : p = none
      · rw [if_pos hp]
        simp [hm, hp]
      · rw [if_neg hp]
        by_cases hq0 : q ≤ 0
        · rw [if_pos hq0]
          simp [hm, hp, hq0]
        · rw [if_neg hq0]
          simp [hm, hp, hq0]

/-- Witness for claim C8: the snek clause applied to a concrete
LimitBuy with no price, which must fail. -/
theorem claim_C8_witness :
    ∃ e, Snek.Order.init .LimitBuy "SYM" 10 none = .error e :=
  (claim_C8_construction.2 .LimitBuy "SYM" 10 none).mpr
    (Or.inr (Or.inl ⟨by simp, rfl⟩))

/-- Claim C9, counterexample: two concrete snek brokers, identical
except that one holds a pending MarketSell that validation rejects
(position 0), produce byte-for-byte identical tick results — the
rejection leaves no trace anywhere: no event, no log entry, nothing on
the wire. -/
theorem claim_C9_counterexample :
    Snek.tick
        ⟨1000, [("SYM", 0)], [⟨.MarketSell, "SYM", 5, none⟩], false, [], [],
          [], [("SYM", some ⟨10, 0⟩)]⟩
        ⟨[], [], true, [("SYM", some ⟨10, 0⟩)]⟩
      = Snek.tick
        ⟨1000, [("SYM", 0)], [], false, [], [], [], [("SYM", some ⟨10, 0⟩)]⟩
        ⟨[], [], true, [("SYM", some ⟨10, 0⟩)]⟩
    ∧ ([⟨.MarketSell, "SYM", 5, none⟩] : List Snek.Order) ≠ [] :=
  ⟨rfl, by decide⟩

/-- Claim C9 (amended): a pending order that flush-time validation
rejects is dropped from transmission and never reaches the wire, and
the tick continues; but no rejection event is reported — appending such
an order to the pending buffer leaves the entire observable result of
`tick` (wire output, outcome, every state field) unchanged, so the drop
is silent. -/
theorem claim_C9_silent_rejection (st : Snek.BrokerState)
    (resp : Snek.TickResponse) (o : Snek.Order)
    (h : Snek.validate_order st.holdings o = .ok false) :
    Snek.tick { st with pending_orders := st.pending_orders ++ [o] } resp
      = Snek.tick st resp
    ∧ (∀ l, ∀ o2 ∈ (Snek.flush_loop st.holdings l).1,
        Snek.validate_order st.holdings o2 = .ok true) :=
  ⟨snek_tick_drop_rejected st resp o h,
    fun l => flush_loop_wire_validated st.holdings l⟩

/-- Witness for claim C9: the silent-drop theorem applied to a concrete
state with position 0 and a rejected MarketSell. -/
theorem claim_C9_witness :
    Snek.validate_order [("SYM", (0 : Int))]
        ⟨.MarketSell, "SYM", 5, none⟩ = .ok false
    ∧ Snek.tick
        ⟨500, [("SYM", 0)], [] ++ [⟨.MarketSell, "SYM", 5, none⟩], false,
          [], [], [], []⟩
        ⟨[], [], true, []⟩
      = Snek.tick ⟨500, [("SYM", 0)], [], false, [], [], [], []⟩
          ⟨[], [], true, []⟩ := by
  refine ⟨rfl, ?_⟩
  exact (claim_C9_silent_rejection
    ⟨500, [("SYM", 0)], [], false, [], [], [], []⟩
    ⟨[], [], true, []⟩ ⟨.MarketSell, "SYM", 5, none⟩ rfl).1

/-- Claim C10: a symbol touched by a reconciled Buy or Sell fill
becomes a key of Holdings and remains one in every later reachable
state (entries are created on first touch and never deleted); every
`get_current_value` call then looks that symbol up in the latest quote
snapshot and fails with a KeyError when the quote is missing — even
though a zero position contributes nothing to the valuation when the
quote is present. -/
theorem claim_C10_holdings_persistence :
    (∀ (st st1 : Rotala.BrokerState) (r : Rotala.OrderResult),
      (r.typ = .Buy ∨ r.typ = .Sell) →
      Rotala.process_order_result st r = .ok st1 →
      r.symbol ∈ dictKeys st1.holdings)
    ∧ (∀ (st st1 : Rotala.BrokerState) (sym : String),
        sym ∈ dictKeys st.holdings → Rotala.Reachable st st1 →
        sym ∈ dictKeys st1.holdings)
    ∧ (∀ (st : Rotala.BrokerState) (sym : String),
        sym ∈ dictKeys st.holdings →
        dictGet st.latest_quotes sym = none →
        Rotala.get_current_value st = .error "KeyError")
    ∧ (∀ (quotes : List (String × Option Rotala.Quote))
        (rest : List (String × Int)) (acc : Int) (sym : String)
        (q : Option Rotala.Quote),
        dictGet quotes sym = some q →
        Rotala.current_value_loop quotes acc ((sym, 0) :: rest)
          = Rotala.current_value_loop quotes acc rest) := by
  refine ⟨?_, ?_, ?_, ?_⟩
  · intro st st1 r hbs h
    rcases hbs with hb | hb
    · obtain ⟨hc, hg⟩ := process_order_result_buy st st1 r hb h
      exact mem_dictKeys_of_dictGet _ _ _ hg
    · obtain ⟨hc, hg⟩ := process_order_result_sell st st1 r hb h
      exact mem_dictKeys_of_dictGet _ _ _ hg
  · intro st st1 sym hmem hreach
    exact reachable_holdings_keys_mono hreach sym hmem
  · intro st sym hmem hq
    exact current_value_loop_missing _ _ _ _ hmem hq
  · intro quotes rest acc sym q hq
    exact current_value_loop_zero_head _ _ _ _ _ hq

/-- Witness for claim C10: a broker holding a zero position in SYM with
no SYM quote in the latest snapshot; valuation fails with KeyError. -/
theorem claim_C10_witness :
    ("SYM" ∈ dictKeys [("SYM", (0 : Int))])
    ∧ Rotala.get_current_value ⟨1000, [("SYM", 0)], [], [], [], [], [], 0⟩
        = .error "KeyError" := by
  refine ⟨by simp [dictKeys], ?_⟩
  exact claim_C10_holdings_persistence.2.2.1
    ⟨1000, [("SYM", 0)], [], [], [], [], [], 0⟩ "SYM"
    (by simp [dictKeys]) rfl
